import Mathlib

/-!
Shallow embedding of the `results` TypeScript library
(`src/source/GeneralError.ts` and `src/source/ResultContainer.ts`).

Modelling conventions:
* JavaScript values that may be `undefined` become `Option`.
* The call-stack string captured by `new Error().stack` inside `getLocation`
  is nondeterministic at run time; it is threaded through the embedding as an
  explicit `stack : Option String` parameter (every theorem quantifies over it).
* `throw new Error(msg)` in `unwrap` becomes `Except.error msg`.
* The `Record<string, ·>` / `Map<string, ·>` inputs of `compose`/`composeAny`
  become association lists `List (String × ·)` in iteration order; JavaScript
  objects and Maps have pairwise-distinct keys, so `result[key] = v`
  assignments in iteration order coincide with `List.filterMap`.
-/

namespace Results

/-- Embeds the data of class `GeneralError`: private string fields `#code`,
`#message`, `#location`, `#source` exposed through read-only getters.
`GeneralErrorBag` (the plain-object projection produced by `toBag`) has the
same four string fields, so the embedding uses this one structure for both. -/
structure GeneralError where
  code : String
  message : String
  location : String
  source : String
deriving DecidableEq, Repr

/-- Embeds the constructor argument bag of `GeneralError`:
`message` is required, the other three fields may be absent. -/
structure GeneralErrorInit where
  message : String
  code : Option String := none
  location : Option String := none
  source : Option String := none

/-- Embeds `getLocation`: builds a throwaway `Error` and returns its `stack`
when truthy, and the empty string otherwise. The captured stack is the
explicit `stack` argument of the embedding. -/
def getLocation (stack : Option String) : String :=
  match stack with
  | some s => if s = "" then "" else s
  | none => ""

/-- Embeds the `GeneralError` constructor:
`#code = data.code ?? ""`, `#message = data.message`,
`#location = data.location ?? getLocation()`, `#source = data.source ?? ""`. -/
def GeneralError.make (stack : Option String) (data : GeneralErrorInit) : GeneralError where
  code := data.code.getD ""
  message := data.message
  location := data.location.getD (getLocation stack)
  source := data.source.getD ""

/-- Embeds the single-record branch of static `GeneralError.toString`:
the `[code source]` segment is printed only when `data.code` is truthy
(a string is truthy exactly when non-empty) and the `[location]` segment only
when `data.location` is truthy, each followed by a space, then the message. -/
def GeneralError.toStringOne (e : GeneralError) : String :=
  (if e.code = "" then "" else "[" ++ e.code ++ " " ++ e.source ++ "] ")
    ++ (if e.location = "" then "" else "[" ++ e.location ++ "] ")
    ++ e.message

/-- Embeds the array branch of static `GeneralError.toString`:
`data.map(this.toString).join(delimiter)` with `delimiter = "\n"` by default.
(`Array.prototype.map` also passes the element index as the `delimiter`
parameter of the inner call, but the single-record branch never reads it.) -/
def GeneralError.toStringList (data : List GeneralError) (delimiter : String) : String :=
  String.intercalate delimiter (data.map GeneralError.toStringOne)

/-- Embeds static `GeneralError.translate`: spreads `toBag(data)` (all four
fields) and replaces `message` by `codeMap.get(data.code) ?? data.message`.
The `Map<string, string>` is an association list with `List.lookup`. -/
def GeneralError.translate (stack : Option String) (data : GeneralError)
    (codeMap : List (String × String)) : GeneralError :=
  GeneralError.make stack
    { message := (codeMap.lookup data.code).getD data.message
      code := some data.code
      location := some data.location
      source := some data.source }

/-- Embeds JavaScript `a || b` for a string `a` and possibly-absent `b`:
a string is truthy exactly when non-empty. -/
def jsOrString (a : String) (b : Option String) : Option String :=
  if a = "" then b else some a

/-- A `string | GeneralError` input value. -/
abbrev ErrOrStr := String ⊕ GeneralError

/-- Embeds `convertError` from `ResultContainer.ts`: a string becomes
`new GeneralError({ message: error, source })`; a `GeneralError` is rebuilt
from its bag (all four fields) with `source: error.source || source`. -/
def convertError (stack : Option String) (error : ErrOrStr) (source : Option String) :
    GeneralError :=
  match error with
  | Sum.inl s => GeneralError.make stack { message := s, source := source }
  | Sum.inr e => GeneralError.make stack
      { message := e.message
        code := some e.code
        location := some e.location
        source := jsOrString e.source source }

/-- Embeds `ResultContainer<T> = FailureResult | SuccessResult<T>`, the union
discriminated by the `success` field. -/
inductive ResultContainer (T : Type) where
  | success (data : T)
  | failure (errors : List GeneralError)
deriving DecidableEq, Repr

variable {T : Type}

/-- The discriminant test `result.success === false`. -/
def isFailure : ResultContainer T → Bool
  | .success _ => false
  | .failure _ => true

/-- The discriminant test `result.success === true`. -/
def isSuccess : ResultContainer T → Bool
  | .success _ => true
  | .failure _ => false

/-- The errors of a failure result, and `[]` for a success. -/
def errorsOf : ResultContainer T → List GeneralError
  | .success _ => []
  | .failure errors => errors

/-- The spec's data-model invariant on an outcome: a Failure carries at least
one error record. -/
def wellFormed : ResultContainer T → Bool
  | .success _ => true
  | .failure errors => decide (1 ≤ errors.length)

/-- Embeds `success`: `{ success: true, data }`. -/
def success (data : T) : ResultContainer T :=
  .success data

/-- The argument of `failure`:
`ReadonlyArray<GeneralError | string> | string | GeneralError`. The source
distinguishes the two shapes with
`errors instanceof GeneralError || typeof errors === "string"`. -/
abbrev FailureArg := ErrOrStr ⊕ List ErrOrStr

/-- Embeds `failure`: a single error or string is converted and wrapped in a
one-element array; an array is mapped through `convertError`. -/
def failure (stack : Option String) (errors : FailureArg) (source : Option String) :
    ResultContainer T :=
  match errors with
  | Sum.inl e => .failure [convertError stack e source]
  | Sum.inr es => .failure (es.map (fun e => convertError stack e source))

/-- Embeds `unwrap`: returns the data of a success; for a failure, throws an
`Error` whose message is `GeneralError.toString` of the errors mapped through
`convertError(e, source)`, joined with the default delimiter `"\n"`. -/
def unwrap (stack : Option String) (result : ResultContainer T) (source : Option String) :
    Except String T :=
  match result with
  | .success data => Except.ok data
  | .failure errors =>
      Except.error (GeneralError.toStringList
        (errors.map (fun e => convertError stack (Sum.inr e) source)) "\n")

/-- Embeds `wrap`: if `errors` is present and non-empty, `failure(errors, source)`;
else if `data === undefined`, a failure with one synthesized `GeneralError`
(note the inner `failure` call passes no `source` argument); else `success(data)`. -/
def wrap (stack : Option String) (data : Option T) (errors : Option (List ErrOrStr))
    (source : Option String) : ResultContainer T :=
  if 0 < (errors.getD []).length then
    failure stack (Sum.inr (errors.getD [])) source
  else
    match data with
    | none => failure stack (Sum.inl (Sum.inr (GeneralError.make stack
        { message := "No value for data was provided, but no errors were either."
          code := some "UnknownError"
          source := source }))) none
    | some d => success d

/-- The `errors` array accumulated by the `forEach`/`for` loops of
`collect`, `collectAny`, `compose` and `composeAny` (restricted to a plain
list of results): each failing result appends its own errors, in input order. -/
def collectErrors (results : List (ResultContainer T)) : List GeneralError :=
  results.flatMap errorsOf

/-- The `data` array accumulated by `collect`/`collectAny`: each successful
result appends its data, in input order. -/
def collectData (results : List (ResultContainer T)) : List T :=
  results.filterMap fun r =>
    match r with
    | .success d => some d
    | .failure _ => none

/-- Embeds `collect`: partitions the results into accumulated `data` and
`errors`, then returns `wrap(data, errors, source)`. -/
def collect (stack : Option String) (results : List (ResultContainer T))
    (source : Option String) : ResultContainer (List T) :=
  wrap stack (some (collectData results)) (some ((collectErrors results).map Sum.inr)) source

/-- Embeds `collectAny`: the same partition, then `success(data)` when
`data.length > 0` and `failure(errors, source)` otherwise. -/
def collectAny (stack : Option String) (results : List (ResultContainer T))
    (source : Option String) : ResultContainer (List T) :=
  if 0 < (collectData results).length then
    success (collectData results)
  else
    failure stack (Sum.inr ((collectErrors results).map Sum.inr)) source

/-- The keyed `errors` accumulation of `compose`/`composeAny` over the entries
of the input mapping, in iteration order. -/
def composeErrors (entries : List (String × ResultContainer T)) : List GeneralError :=
  entries.flatMap fun kv => errorsOf kv.2

/-- The keyed result mapping built by `compose`/`composeAny`:
`result[key] = value.data` for each successful entry, in iteration order
(input keys are pairwise distinct, being object or Map keys). -/
def composeData (entries : List (String × ResultContainer T)) : List (String × T) :=
  entries.filterMap fun kv =>
    match kv.2 with
    | .success d => some (kv.1, d)
    | .failure _ => none

/-- Embeds `compose`: iterates the entries accumulating the result mapping and
the errors, then returns `wrap(result, errors, source)`. -/
def compose (stack : Option String) (entries : List (String × ResultContainer T))
    (source : Option String) : ResultContainer (List (String × T)) :=
  wrap stack (some (composeData entries)) (some ((composeErrors entries).map Sum.inr)) source

/-- Embeds `composeAny`: the same iteration, then `success(data)` when
`Object.keys(data).length > 0` and `failure(errors, source)` otherwise. -/
def composeAny (stack : Option String) (entries : List (String × ResultContainer T))
    (source : Option String) : ResultContainer (List (String × T)) :=
  if 0 < (composeData entries).length then
    success (composeData entries)
  else
    failure stack (Sum.inr ((composeErrors entries).map Sum.inr)) source

/-- A sample error record with message "a" and every other field empty. -/
def errA : GeneralError := ⟨"", "a", "", ""⟩

/-- A sample error record with message "b" and every other field empty. -/
def errB : GeneralError := ⟨"", "b", "", ""⟩

/-- A sample error record with message "c" and every other field empty. -/
def errC : GeneralError := ⟨"", "c", "", ""⟩

/-! Helper lemmas about `convertError` and the accumulating passes. -/

theorem convertError_inr_none (stack : Option String) (e : GeneralError) :
    convertError stack (Sum.inr e) none = e := by
  cases e with
  | mk c m l s =>
    simp only [convertError, GeneralError.make, jsOrString]
    by_cases hs : s = "" <;> simp [hs]

theorem convertError_inr_fields (stack source : Option String) (e : GeneralError) :
    (convertError stack (Sum.inr e) source).message = e.message ∧
    (convertError stack (Sum.inr e) source).code = e.code ∧
    (convertError stack (Sum.inr e) source).location = e.location ∧
    (convertError stack (Sum.inr e) source).source =
      (if e.source = "" then source.getD "" else e.source) := by
  simp only [convertError, GeneralError.make, jsOrString]
  by_cases hs : e.source = "" <;> simp [hs]

theorem map_convertError_none (stack : Option String) (es : List GeneralError) :
    es.map (fun e => convertError stack (Sum.inr e) none) = es := by
  have hfun : (fun e => convertError stack (Sum.inr e) none) = id :=
    funext (fun e => convertError_inr_none stack e)
  rw [hfun, List.map_id]

theorem collectErrors_ne_nil_of_failure {results : List (ResultContainer T)}
    (hwf : ∀ r ∈ results, wellFormed r = true)
    (hex : ∃ r ∈ results, isFailure r = true) :
    collectErrors results ≠ [] := by
  obtain ⟨r, hr, hf⟩ := hex
  intro hnil
  have hall : ∀ r ∈ results, errorsOf r = [] := by
    simpa [collectErrors, List.flatMap_eq_nil_iff] using hnil
  cases r with
  | success d => simp [isFailure] at hf
  | failure es =>
    have h1 := hwf _ hr
    have h2 := hall _ hr
    simp [wellFormed, errorsOf] at h1 h2
    rw [h2] at h1
    simp at h1

theorem composeErrors_ne_nil_of_failure {entries : List (String × ResultContainer T)}
    (hwf : ∀ kv ∈ entries, wellFormed kv.2 = true)
    (hex : ∃ kv ∈ entries, isFailure kv.2 = true) :
    composeErrors entries ≠ [] := by
  obtain ⟨kv, hkv, hf⟩ := hex
  intro hnil
  have hall : ∀ kv ∈ entries, errorsOf kv.2 = [] := by
    simpa [composeErrors, List.flatMap_eq_nil_iff] using hnil
  cases h2 : kv.2 with
  | success d => simp [isFailure, h2] at hf
  | failure es =>
    have h1 := hwf _ hkv
    have h3 := hall _ hkv
    simp [wellFormed, errorsOf, h2] at h1 h3
    rw [h3] at h1
    simp at h1

theorem collectErrors_map_success (datas : List T) :
    collectErrors (datas.map ResultContainer.success) = [] := by
  simp [collectErrors, errorsOf]

theorem collectData_map_success (datas : List T) :
    collectData (datas.map ResultContainer.success) = datas := by
  induction datas with
  | nil => rfl
  | cons d ds ih => simpa [collectData, List.filterMap_cons] using ih

theorem collectData_eq_nil (results : List (ResultContainer T)) :
    collectData results = [] ↔ ∀ r ∈ results, isSuccess r = false := by
  induction results with
  | nil => simp [collectData]
  | cons r rest ih =>
    cases r with
    | success d => simp [collectData, List.filterMap_cons, isSuccess]
    | failure es =>
      have h : collectData (ResultContainer.failure es :: rest) = collectData rest := rfl
      rw [h, ih]
      simp [isSuccess]

theorem composeErrors_map_success (pairs : List (String × T)) :
    composeErrors (pairs.map (fun kd => (kd.1, ResultContainer.success kd.2))) = [] := by
  induction pairs with
  | nil => rfl
  | cons p ps ih => simpa [composeErrors, errorsOf] using ih

theorem composeData_map_success (pairs : List (String × T)) :
    composeData (pairs.map (fun kd => (kd.1, ResultContainer.success kd.2))) = pairs := by
  induction pairs with
  | nil => rfl
  | cons p ps ih => simpa [composeData, List.filterMap_cons] using ih

theorem wrap_failure_length (stack source : Option String) (data : Option T)
    (errors : Option (List ErrOrStr))
    (hf : isFailure (wrap stack data errors source) = true) :
    1 ≤ (errorsOf (wrap stack data errors source)).length := by
  by_cases hl : 0 < (errors.getD []).length
  · simp [wrap, hl, failure, errorsOf]
    omega
  · cases data with
    | none => simp [wrap, hl, failure, errorsOf]
    | some d => simp [wrap, hl, success, isFailure] at hf

/-! Claim theorems. -/

/-- C1 (counterexample): `failure` applied to an empty error list, and
`collectAny` applied to an empty input collection, both return a Failure whose
error sequence has length 0, contradicting the claim that every Failure built
by the combinators carries at least one error record. -/
theorem failure_empty_errors_counterexample :
    failure (T := Nat) none (Sum.inr []) none = ResultContainer.failure [] ∧
    collectAny (T := Nat) none [] none = ResultContainer.failure [] ∧
    (errorsOf (failure (T := Nat) none (Sum.inr []) none)).length = 0 := by
  exact ⟨rfl, rfl, rfl⟩

/-- C1 (amended): every Failure produced by `wrap`, `collect` or `compose` has
at least one error record; `failure` produces at least one when given a single
error/string or a non-empty list; `collectAny`/`composeAny` produce at least
one when the input collection is non-empty and its members satisfy the
Failure-non-empty invariant. The claim's inclusion of the empty error list and
the empty input collection is dropped. -/
theorem failure_nonempty_invariant_amended (stack source : Option String) :
    (∀ e : ErrOrStr, 1 ≤ (errorsOf (failure (T := T) stack (Sum.inl e) source)).length) ∧
    (∀ es : List ErrOrStr, es ≠ [] →
      1 ≤ (errorsOf (failure (T := T) stack (Sum.inr es) source)).length) ∧
    (∀ (data : Option T) (errors : Option (List ErrOrStr)),
      isFailure (wrap stack data errors source) = true →
      1 ≤ (errorsOf (wrap stack data errors source)).length) ∧
    (∀ results : List (ResultContainer T),
      isFailure (collect stack results source) = true →
      1 ≤ (errorsOf (collect stack results source)).length) ∧
    (∀ entries : List (String × ResultContainer T),
      isFailure (compose stack entries source) = true →
      1 ≤ (errorsOf (compose stack entries source)).length) ∧
    (∀ results : List (ResultContainer T), results ≠ [] →
      (∀ r ∈ results, wellFormed r = true) →
      isFailure (collectAny stack results source) = true →
      1 ≤ (errorsOf (collectAny stack results source)).length) ∧
    (∀ entries : List (String × ResultContainer T), entries ≠ [] →
      (∀ kv ∈ entries, wellFormed kv.2 = true) →
      isFailure (composeAny stack entries source) = true →
      1 ≤ (errorsOf (composeAny stack entries source)).length) := by
  refine ⟨?_, ?_, fun data errors hf => wrap_failure_length _ _ _ _ hf, ?_, ?_, ?_, ?_⟩
  · intro e
    simp [failure, errorsOf]
  · intro es hes
    simp [failure, errorsOf]
    exact List.length_pos.mpr hes
  · intro results hf
    have hf2 : isFailure (wrap stack (some (collectData results))
        (some ((collectErrors results).map Sum.inr)) source) = true := by
      simpa [collect] using hf
    simpa [collect] using wrap_failure_length _ _ _ _ hf2
  · intro entries hf
    have hf2 : isFailure (wrap stack (some (composeData entries))
        (some ((composeErrors entries).map Sum.inr)) source) = true := by
      simpa [compose] using hf
    simpa [compose] using wrap_failure_length _ _ _ _ hf2
  · intro results hne hwf hf
    by_cases hl : 0 < (collectData results).length
    · simp [collectAny, hl, success, isFailure] at hf
    · cases results with
      | nil => exact absurd rfl hne
      | cons r rest =>
        cases r with
        | success d => simp [collectData, List.filterMap_cons] at hl
        | failure es =>
          have h1 := hwf _ (List.mem_cons_self _ _)
          simp [wellFormed] at h1
          simp [collectAny, hl, failure, errorsOf, collectErrors, List.flatMap_cons]
          omega
  · intro entries hne hwf hf
    by_cases hl : 0 < (composeData entries).length
    · simp [composeAny, hl, success, isFailure] at hf
    · cases entries with
      | nil => exact absurd rfl hne
      | cons kv rest =>
        cases hkv : kv.2 with
        | success d =>
          simp [composeData, List.filterMap_cons, hkv] at hl
        | failure es =>
          have h1 := hwf _ (List.mem_cons_self _ _)
          simp [wellFormed, hkv] at h1
          simp [composeAny, hl, failure, errorsOf, composeErrors, List.flatMap_cons, hkv]
          omega

/-- C1 (witness): the amended invariant applied to a concrete non-empty input
collection whose only member is a well-formed Failure. -/
theorem failure_nonempty_invariant_amended_witness :
    1 ≤ (errorsOf (collectAny (T := Nat) none [ResultContainer.failure [errA]] none)).length := by
  have h := failure_nonempty_invariant_amended (T := Nat) none none
  exact h.2.2.2.2.2.1 [ResultContainer.failure [errA]] (by simp) (by decide) (by decide)

/-- C2: `collect` is all-or-nothing. With every input outcome well formed:
whenever some input is a Failure, the result is a Failure whose error sequence
is the concatenation, in input order, of the failing outcomes' error sequences
mapped through `convertError` (which, per the last conjunct, preserves
message, code and location and back-fills only an empty source); and whenever
the inputs are all Successes, the result is Success of their data in input
order. -/
theorem collect_all_or_nothing (stack source : Option String)
    (results : List (ResultContainer T))
    (hwf : ∀ r ∈ results, wellFormed r = true) :
    ((∃ r ∈ results, isFailure r = true) →
      collect stack results source =
        ResultContainer.failure
          ((collectErrors results).map (fun e => convertError stack (Sum.inr e) source))) ∧
    (∀ datas : List T, results = datas.map ResultContainer.success →
      collect stack results source = ResultContainer.success datas) ∧
    (∀ e : GeneralError,
      (convertError stack (Sum.inr e) source).message = e.message ∧
      (convertError stack (Sum.inr e) source).code = e.code ∧
      (convertError stack (Sum.inr e) source).location = e.location ∧
      (convertError stack (Sum.inr e) source).source =
        (if e.source = "" then source.getD "" else e.source)) := by
  refine ⟨?_, ?_, fun e => convertError_inr_fields stack source e⟩
  · intro hex
    have hne := collectErrors_ne_nil_of_failure hwf hex
    simp [collect, wrap, List.length_pos.mpr hne, failure, List.map_map, Function.comp]
  · intro datas hd
    subst hd
    simp [collect, wrap, collectErrors_map_success, collectData_map_success, success]

/-- C2 (witness): the spec's example
`[Success(1), Failure(["a"]), Success(2), Failure(["b","c"])]` collects to a
Failure with the records carrying messages `a`, `b`, `c` in that order. -/
theorem collect_all_or_nothing_witness :
    collect none [success (1 : Nat), ResultContainer.failure [errA], success 2,
        ResultContainer.failure [errB, errC]] none
      = ResultContainer.failure [errA, errB, errC] := by
  have h := (collect_all_or_nothing (T := Nat) none none
      [success 1, ResultContainer.failure [errA], success 2,
        ResultContainer.failure [errB, errC]] (by decide)).1 (by decide)
  exact h.trans (by decide)

/-- C4: `collectAny` is best-effort: with at least one successful input the
result is Success of exactly the successful data in input order; with no
successful input the result is a Failure carrying the concatenation of all
input errors in input order (mapped through `convertError`; when no source
argument is supplied this mapping is the identity, so the error sequence is
the concatenation itself). -/
theorem collectAny_best_effort (stack source : Option String)
    (results : List (ResultContainer T)) :
    ((∃ r ∈ results, isSuccess r = true) →
      collectAny stack results source = ResultContainer.success (collectData results)) ∧
    ((∀ r ∈ results, isSuccess r = false) →
      collectAny stack results source =
        ResultContainer.failure
          ((collectErrors results).map (fun e => convertError stack (Sum.inr e) source))) ∧
    ((∀ r ∈ results, isSuccess r = false) →
      collectAny stack results none = ResultContainer.failure (collectErrors results)) := by
  have hiff := collectData_eq_nil results
  have hfail : ∀ src : Option String, (∀ r ∈ results, isSuccess r = false) →
      collectAny stack results src =
        ResultContainer.failure
          ((collectErrors results).map (fun e => convertError stack (Sum.inr e) src)) := by
    intro src hall
    have h0 : collectData results = [] := hiff.mpr hall
    have hl : ¬ 0 < (collectData results).length := by simp [h0]
    simp [collectAny, hl, failure, List.map_map]
  refine ⟨?_, hfail source, ?_⟩
  · intro hex
    have hne : collectData results ≠ [] := by
      intro h0
      obtain ⟨r, hr, hs⟩ := hex
      rw [hiff.mp h0 r hr] at hs
      exact Bool.false_ne_true hs
    have hl : 0 < (collectData results).length := List.length_pos.mpr hne
    simp [collectAny, hl, success]
  · intro hall
    rw [hfail none hall, map_convertError_none]

/-- C4 (witness): the spec's example `[Failure(["a"]), Success(5), Failure(["b"])]`
best-effort-collects to `Success([5])`. -/
theorem collectAny_best_effort_witness :
    collectAny none [ResultContainer.failure [errA], success (5 : Nat),
        ResultContainer.failure [errB]] none
      = ResultContainer.success [5] := by
  have h := (collectAny_best_effort (T := Nat) none none
      [ResultContainer.failure [errA], success 5, ResultContainer.failure [errB]]).1
      (by decide)
  exact h.trans (by decide)

/-- C5: `compose` is all-or-nothing over a keyed mapping (modelled as an
association list in iteration order). With every entry well formed: whenever
some entry is a Failure, the result is a Failure carrying the concatenation,
in iteration order, of the failing entries' errors (mapped through
`convertError`, the accumulated result mapping discarded); and whenever every
entry succeeds, the result is Success of the mapping holding each entry's
data under its original key, preserving iteration order. -/
theorem compose_all_or_nothing (stack source : Option String)
    (entries : List (String × ResultContainer T))
    (hwf : ∀ kv ∈ entries, wellFormed kv.2 = true) :
    ((∃ kv ∈ entries, isFailure kv.2 = true) →
      compose stack entries source =
        ResultContainer.failure
          ((composeErrors entries).map (fun e => convertError stack (Sum.inr e) source))) ∧
    (∀ pairs : List (String × T),
      entries = pairs.map (fun kd => (kd.1, ResultContainer.success kd.2)) →
      compose stack entries source = ResultContainer.success pairs) := by
  constructor
  · intro hex
    have hne := composeErrors_ne_nil_of_failure hwf hex
    simp [compose, wrap, List.length_pos.mpr hne, failure, List.map_map, Function.comp]
  · intro pairs hd
    subst hd
    simp [compose, wrap, composeErrors_map_success, composeData_map_success, success]

/-- C5 (witness): the spec's examples — `{a: Success(1), b: Failure(["a"])}`
composes to a Failure with that one record, and `{a: Success(1), b: Success(2)}`
composes to Success of `{a: 1, b: 2}`. -/
theorem compose_all_or_nothing_witness :
    compose none [("a", success (1 : Nat)), ("b", ResultContainer.failure [errA])] none
      = ResultContainer.failure [errA] ∧
    compose none [("a", success (1 : Nat)), ("b", success 2)] none
      = ResultContainer.success [("a", 1), ("b", 2)] := by
  constructor
  · have h := (compose_all_or_nothing (T := Nat) none none
        [("a", success 1), ("b", ResultContainer.failure [errA])] (by decide)).1 (by decide)
    exact h.trans (by decide)
  · exact (compose_all_or_nothing (T := Nat) none none
      [("a", success 1), ("b", success 2)] (by decide)).2 [("a", 1), ("b", 2)] (by decide)

/-- C3: `collect` on the empty input returns Success with the empty sequence,
and `wrap` applied to a present empty sequence with no errors likewise returns
Success of the empty sequence (the absent-data rule is not triggered). -/
theorem collect_empty_success (stack source : Option String) :
    collect (T := T) stack [] source = ResultContainer.success [] ∧
    wrap (T := List T) stack (some []) (some []) source = ResultContainer.success [] := by
  exact ⟨rfl, rfl⟩

/-- C6: `wrap` returns `failure(errors, source)` whenever `errors` is present
and non-empty; otherwise, when `data` is absent, it returns a Failure with
exactly one synthesized record whose message and code are the documented
constants; otherwise it returns `success(data)`. In particular
`wrap([], [])` is Success of the empty sequence. -/
theorem wrap_spec (stack source : Option String) :
    (∀ (data : Option T) (es : List ErrOrStr), es ≠ [] →
      wrap stack data (some es) source = failure stack (Sum.inr es) source) ∧
    (∀ errors : Option (List ErrOrStr), errors = none ∨ errors = some [] →
      (errorsOf (wrap (T := T) stack none errors source)).length = 1 ∧
      ∀ e ∈ errorsOf (wrap (T := T) stack none errors source),
        e.message = "No value for data was provided, but no errors were either." ∧
        e.code = "UnknownError") ∧
    (∀ (d : T) (errors : Option (List ErrOrStr)), errors = none ∨ errors = some [] →
      wrap stack (some d) errors source = success d) ∧
    (wrap (T := List Nat) stack (some []) (some []) source = ResultContainer.success []) := by
  refine ⟨?_, ?_, ?_, rfl⟩
  · intro data es hes
    simp [wrap, List.length_pos.mpr hes]
  · intro errors herr
    have hw : wrap (T := T) stack none errors source =
        failure stack (Sum.inl (Sum.inr (GeneralError.make stack
          { message := "No value for data was provided, but no errors were either."
            code := some "UnknownError"
            source := source }))) none := by
      rcases herr with h | h <;> subst h <;> rfl
    rw [hw]
    refine ⟨rfl, ?_⟩
    intro e he
    simp [failure, errorsOf] at he
    subst he
    constructor
    · simp [convertError, GeneralError.make]
    · simp [convertError, GeneralError.make]
  · intro d errors herr
    rcases herr with h | h <;> subst h <;> rfl

/-- C6 (witness): `wrap` with present data and one string error yields the
corresponding `failure` call, and `wrap` with neither data nor errors yields a
Failure with exactly one record. -/
theorem wrap_spec_witness :
    wrap (T := Nat) none (some 5) (some [Sum.inl "boom"]) none =
      failure none (Sum.inr [Sum.inl "boom"]) none ∧
    (errorsOf (wrap (T := Nat) none none none none)).length = 1 := by
  have h := wrap_spec (T := Nat) none none
  exact ⟨h.1 (some 5) [Sum.inl "boom"] (by simp), (h.2.1 none (Or.inl rfl)).1⟩

/-- C7: `unwrap` of a Success returns the data unchanged; `unwrap` of a
Failure fails with the Format-ed rendering of the contained records mapped
through `convertError` (source back-fill) and joined by newline; when no
source argument is supplied the message is exactly the Format of the
original records. -/
theorem unwrap_spec (stack source : Option String) :
    (∀ d : T, unwrap stack (ResultContainer.success d) source = Except.ok d) ∧
    (∀ errors : List GeneralError,
      unwrap (T := T) stack (ResultContainer.failure errors) source =
        Except.error (GeneralError.toStringList
          (errors.map (fun e => convertError stack (Sum.inr e) source)) "\n")) ∧
    (∀ errors : List GeneralError,
      unwrap (T := T) stack (ResultContainer.failure errors) none =
        Except.error (GeneralError.toStringList errors "\n")) := by
  refine ⟨fun d => rfl, fun errors => rfl, ?_⟩
  intro errors
  simp [unwrap, map_convertError_none]

/-- C8: the single-record Format is
`"[{code} {source}] [{location}] {message}"` with the `[code source]` segment
present exactly when `code` is non-empty and the `[location]` segment present
exactly when `location` is non-empty (four exhaustive cases below); and the
sequence Format is the independently formatted records joined by the
delimiter. -/
theorem generalError_format_spec (e : GeneralError) (es : List GeneralError)
    (delimiter : String) :
    (e.code = "" → e.location = "" → GeneralError.toStringOne e = e.message) ∧
    (e.code ≠ "" → e.location = "" →
      GeneralError.toStringOne e =
        ("[" ++ e.code ++ " " ++ e.source ++ "] ") ++ e.message) ∧
    (e.code = "" → e.location ≠ "" →
      GeneralError.toStringOne e = ("[" ++ e.location ++ "] ") ++ e.message) ∧
    (e.code ≠ "" → e.location ≠ "" →
      GeneralError.toStringOne e =
        ("[" ++ e.code ++ " " ++ e.source ++ "] ") ++ ("[" ++ e.location ++ "] ")
          ++ e.message) ∧
    GeneralError.toStringList es delimiter =
      String.intercalate delimiter (es.map GeneralError.toStringOne) := by
  refine ⟨?_, ?_, ?_, ?_, rfl⟩ <;> intro h1 h2 <;> simp [GeneralError.toStringOne, h1, h2]

/-- C8 (witness): concrete records exercising the segment-omission cases. -/
theorem generalError_format_spec_witness :
    GeneralError.toStringOne ⟨"E1", "bad", "", "api"⟩ = "[E1 api] bad" ∧
    GeneralError.toStringOne ⟨"", "bad", "", ""⟩ = "bad" ∧
    GeneralError.toStringOne ⟨"E1", "bad", "file.ts", "api"⟩ = "[E1 api] [file.ts] bad" := by
  refine ⟨?_, ?_, ?_⟩
  · exact ((generalError_format_spec ⟨"E1", "bad", "", "api"⟩ [] "\n").2.1
      (by decide) rfl).trans (by decide)
  · exact ((generalError_format_spec ⟨"", "bad", "", ""⟩ [] "\n").1 rfl rfl)
  · exact ((generalError_format_spec ⟨"E1", "bad", "file.ts", "api"⟩ [] "\n").2.2.2.1
      (by decide) (by decide)).trans (by decide)

/-- C9: `translate` returns a record whose message is the code map's entry for
the input's code when present and the input's message otherwise, with code,
location and source unchanged (the embedding is pure, so neither the input
record nor the code map is modified). -/
theorem translate_spec (stack : Option String) (e : GeneralError)
    (codeMap : List (String × String)) :
    (∀ m : String, codeMap.lookup e.code = some m →
      (GeneralError.translate stack e codeMap).message = m) ∧
    (codeMap.lookup e.code = none →
      (GeneralError.translate stack e codeMap).message = e.message) ∧
    (GeneralError.translate stack e codeMap).code = e.code ∧
    (GeneralError.translate stack e codeMap).location = e.location ∧
    (GeneralError.translate stack e codeMap).source = e.source := by
  refine ⟨?_, ?_, rfl, rfl, rfl⟩
  · intro m hm
    simp [GeneralError.translate, GeneralError.make, hm]
  · intro hm
    simp [GeneralError.translate, GeneralError.make, hm]

/-- C9 (witness): a concrete record translated through a map that contains its
code, and through one that does not. -/
theorem translate_spec_witness :
    (GeneralError.translate none ⟨"E1", "orig", "loc", "src"⟩
      [("E1", "translated")]).message = "translated" ∧
    (GeneralError.translate none ⟨"E2", "orig", "loc", "src"⟩
      [("E1", "translated")]).message = "orig" := by
  constructor
  · exact (translate_spec none ⟨"E1", "orig", "loc", "src"⟩ [("E1", "translated")]).1
      "translated" (by decide)
  · exact (translate_spec none ⟨"E2", "orig", "loc", "src"⟩ [("E1", "translated")]).2.1
      (by decide)

theorem convertError_some_source_ne (stack : Option String) {src : String}
    (hs : src ≠ "") (x : ErrOrStr) :
    (convertError stack x (some src)).source ≠ "" := by
  cases x with
  | inl s => simpa [convertError, GeneralError.make] using hs
  | inr e =>
    simp only [convertError, GeneralError.make, jsOrString]
    by_cases he : e.source = ""
    · simp [he, hs]
    · simp [he]

theorem failure_sources_ne (stack : Option String) {src : String} (hs : src ≠ "")
    (arg : FailureArg) :
    ∀ e ∈ errorsOf (failure (T := T) stack arg (some src)), e.source ≠ "" := by
  intro e he
  cases arg with
  | inl x =>
    have he2 : e ∈ [convertError stack x (some src)] := he
    rw [List.mem_singleton] at he2
    subst he2
    exact convertError_some_source_ne stack hs x
  | inr es =>
    have he2 : e ∈ es.map (fun x => convertError stack x (some src)) := he
    obtain ⟨x, hx, rfl⟩ := List.mem_map.mp he2
    exact convertError_some_source_ne stack hs x

theorem wrap_sources_ne (stack : Option String) {src : String} (hs : src ≠ "")
    (data : Option T) (errors : Option (List ErrOrStr)) :
    ∀ e ∈ errorsOf (wrap stack data errors (some src)), e.source ≠ "" := by
  intro e he
  by_cases hl : 0 < (errors.getD []).length
  · rw [show wrap stack data errors (some src)
        = failure stack (Sum.inr (errors.getD [])) (some src) from by simp [wrap, hl]] at he
    exact failure_sources_ne stack hs _ e he
  · cases data with
    | some d => simp [wrap, hl, success, errorsOf] at he
    | none =>
      simp [wrap, hl, failure, errorsOf] at he
      subst he
      simp [convertError, GeneralError.make, jsOrString, hs]

/-- C10: with a non-empty source argument, a string input acquires that
source, a record keeps its own non-empty source and receives the supplied one
only when its own is empty; and every record in the errors of a Failure
returned by `failure`, `wrap`, `collect`, `collectAny`, `compose` or
`composeAny` has a non-empty source field. -/
theorem source_backfill_invariant (stack : Option String) (src : String)
    (hs : src ≠ "") :
    (∀ s : String, (convertError stack (Sum.inl s) (some src)).source = src) ∧
    (∀ e : GeneralError, (convertError stack (Sum.inr e) (some src)).source =
      (if e.source = "" then src else e.source)) ∧
    (∀ arg : FailureArg,
      ∀ e ∈ errorsOf (failure (T := T) stack arg (some src)), e.source ≠ "") ∧
    (∀ (data : Option T) (errors : Option (List ErrOrStr)),
      ∀ e ∈ errorsOf (wrap stack data errors (some src)), e.source ≠ "") ∧
    (∀ results : List (ResultContainer T),
      ∀ e ∈ errorsOf (collect stack results (some src)), e.source ≠ "") ∧
    (∀ results : List (ResultContainer T),
      ∀ e ∈ errorsOf (collectAny stack results (some src)), e.source ≠ "") ∧
    (∀ entries : List (String × ResultContainer T),
      ∀ e ∈ errorsOf (compose stack entries (some src)), e.source ≠ "") ∧
    (∀ entries : List (String × ResultContainer T),
      ∀ e ∈ errorsOf (composeAny stack entries (some src)), e.source ≠ "") := by
  refine ⟨?_, ?_, failure_sources_ne stack hs, wrap_sources_ne stack hs, ?_, ?_, ?_, ?_⟩
  · intro s
    simp [convertError, GeneralError.make]
  · intro e
    simp only [convertError, GeneralError.make, jsOrString]
    by_cases he : e.source = "" <;> simp [he]
  · intro results e he
    exact wrap_sources_ne stack hs _ _ e (by simpa [collect] using he)
  · intro results e he
    by_cases hl : 0 < (collectData results).length
    · simp [collectAny, hl, success, errorsOf] at he
    · rw [show collectAny stack results (some src)
          = failure stack (Sum.inr ((collectErrors results).map Sum.inr)) (some src) from by
        simp [collectAny, hl]] at he
      exact failure_sources_ne stack hs _ e he
  · intro entries e he
    exact wrap_sources_ne stack hs _ _ e (by simpa [compose] using he)
  · intro entries e he
    by_cases hl : 0 < (composeData entries).length
    · simp [composeAny, hl, success, errorsOf] at he
    · rw [show composeAny stack entries (some src)
          = failure stack (Sum.inr ((composeErrors entries).map Sum.inr)) (some src) from by
        simp [composeAny, hl]] at he
      exact failure_sources_ne stack hs _ e he

/-- C10 (witness): with source "api", a plain string error acquires source
"api", and a record with empty source is back-filled inside `failure`. -/
theorem source_backfill_invariant_witness :
    (convertError none (Sum.inl "boom") (some "api")).source = "api" ∧
    (convertError none (Sum.inr errA) (some "api")).source = "api" := by
  have h := source_backfill_invariant (T := Nat) none "api" (by decide)
  exact ⟨h.1 "boom", (h.2.1 errA).trans (by decide)⟩

end Results
